import Mathlib

/-!
Verification of the charlieplexed 6-digit display driver
(`src/include/CharlieplexDisplay.h` of the battery-monitor firmware).

The C++ class `CharlieplexDisplay` is shallowly embedded: member state
becomes the structure `DisplayState`, member functions become Lean
functions on it, GPIO side effects become an explicit event trace
(`PinEv`), `millis()` becomes an explicit `Nat` argument, and the
`float` arguments of `setVoltage`/`setCurrent` are modelled as exact
rationals (the arithmetic performed on them — multiply by ten, add a
half, truncate to `int` — is then mirrored exactly).  Unsigned 32-bit
wrap-around of `millis()` differences is modelled by `usub32`.
-/

set_option autoImplicit false

namespace BatteryMonitor

/-! ### Compile-time configuration (header `#define`s and tables) -/

def DISPLAY_BRIGHTNESS : Nat := 100

def INTER_SEGMENT_DELAY : Nat := 0

def INTER_DIGIT_DELAY : Nat := 30

def DISCHARGE_PULSE : Nat := 0

def REVERSE_SCAN : Bool := false

def FLASH_INTERVAL_MS : Nat := 400

/-- `const uint8_t scanSequence[6] = SCAN_SEQUENCE_REVERSE;` i.e. `{5,4,3,2,1,0}`. -/
def scanSequence : List Nat := [5, 4, 3, 2, 1, 0]

/-- `const uint8_t charliePins[] = {CPIN0,…,CPIN8}` = `{33,25,4,16,17,32,18,19,23}`. -/
def charliePins : List Nat := [33, 25, 4, 16, 17, 32, 18, 19, 23]

/-- Unchecked C array access `charliePins[i]` (every in-program index is ≤ 8). -/
def pinAt (i : Nat) : Nat := charliePins.getD i 0

/-- Type of the segment-address table: (digit, segment) ↦ (anode index, cathode index). -/
abbrev DigitMapT := Fin 6 → Fin 8 → Nat × Nat

def digitMapRows : List (List (Nat × Nat)) :=
  [[(0,1), (0,2), (0,3), (0,4), (0,5), (0,6), (0,7), (0,8)],
   [(1,0), (2,0), (3,0), (4,0), (5,0), (6,0), (7,0), (8,0)],
   [(1,2), (1,3), (1,4), (1,5), (1,6), (1,7), (1,8), (4,5)],
   [(2,1), (3,1), (4,1), (5,1), (6,1), (7,1), (8,1), (5,4)],
   [(2,3), (2,4), (2,5), (2,6), (2,7), (2,8), (4,6), (4,7)],
   [(3,2), (4,2), (5,2), (6,2), (7,2), (8,2), (6,4), (7,4)]]

/-- `const uint8_t digitMap[6][8][2]`. -/
def digitMap : DigitMapT := fun d s => (digitMapRows.getD d.val []).getD s.val (0, 0)

/-- `const uint8_t digitPatterns[13]` — glyphs for 0–9, minus (10), underscore (11), off (12). -/
def digitPatterns : List Nat :=
  [0b00111111, 0b00000110, 0b01011011, 0b01001111, 0b01100110, 0b01101101,
   0b01111101, 0b00000111, 0b01111111, 0b01101111, 0b01000000, 0b00001000,
   0b00000000]

/-! ### Arithmetic helpers -/

/-- C++ cast `(int)q`: truncation toward zero. -/
def cppTruncInt (q : ℚ) : ℤ := if q < 0 then ⌈q⌉ else ⌊q⌋

/-- `uint32` subtraction `a - b` as performed on `unsigned long` millis values. -/
def usub32 (a b : Nat) : Nat := (a % 4294967296 + (4294967296 - b % 4294967296)) % 4294967296

/-- Point update of a 6-entry array, indexed by the raw C index. -/
def upd6 {α : Type} (f : Fin 6 → α) (j : Nat) (v : α) : Fin 6 → α :=
  fun i => if i.val = j then v else f i

/-! ### The mutable state of `CharlieplexDisplay`

All data members of the class, plus the function-local `static unsigned
long lastDisplayFlash` of `setCurrent` (statics have the same lifetime as
the singleton object).  `currentDigit` is kept as `Fin 6`: the constructor
sets it to 0 and `refresh` advances it by `(+1) % 6`, so the C invariant
`currentDigit < 6` is represented in the type. -/

structure DisplayState where
  displayBuffer : Fin 6 → Nat
  decimalPoints : Fin 6 → Bool
  currentDigit : Fin 6
  lastUpdate : Nat
  testMode : Bool
  testModeStartTime : Nat
  testDigitValue : Nat
  ghostingTestMode : Bool
  lastTestIndex : Int
  toggleState : Nat
  lastDisplayFlash : Nat
  deriving DecidableEq

/-- The constructor `CharlieplexDisplay()`. -/
def initState : DisplayState where
  displayBuffer := fun _ => 0
  decimalPoints := fun _ => false
  currentDigit := ⟨0, by omega⟩
  lastUpdate := 0
  testMode := false
  testModeStartTime := 0
  testDigitValue := 0
  ghostingTestMode := false
  lastTestIndex := -1
  toggleState := 0
  lastDisplayFlash := 0

/-! ### Content mutators -/

/-- `void setDigit(uint8_t digit, uint8_t value, bool dp = false)`. -/
def setDigit (s : DisplayState) (digit value : Nat) (dp : Bool) : DisplayState :=
  if digit < 6 then
    { s with
      displayBuffer := upd6 s.displayBuffer digit value
      decimalPoints := upd6 s.decimalPoints digit dp }
  else s

/-- `void setVoltage(float voltage)`; the float argument is modelled as the
exact rational value it carries. -/
def setVoltage (s : DisplayState) (voltage : ℚ) : DisplayState :=
  let voltageInt : ℤ := cppTruncInt (voltage * 10 + 1/2)
  let voltageInt : ℤ := if voltageInt > 999 then 999 else voltageInt
  let voltageInt : ℤ := if voltageInt < 0 then 0 else voltageInt
  let v : Nat := voltageInt.toNat
  { s with
    displayBuffer :=
      upd6 (upd6 (upd6 s.displayBuffer 0 (v / 100 % 10)) 1 (v / 10 % 10)) 2 (v % 10)
    decimalPoints :=
      upd6 (upd6 (upd6 s.decimalPoints 0 false) 1 true) 2 false }

/-- `void setCurrent(float current)`; `now` is the value `millis()` returns
inside the call. -/
def setCurrent (s : DisplayState) (current : ℚ) (now : Nat) : DisplayState :=
  let charging : Bool := current > 0
  let absCurrent : ℚ := |current|
  let p : Nat × Nat :=
    if usub32 now s.lastDisplayFlash ≥ FLASH_INTERVAL_MS then
      (if s.toggleState = 0 then 1 else 0, now)
    else (s.toggleState, s.lastDisplayFlash)
  let currentInt : ℤ := cppTruncInt (absCurrent * 10 + 1/2)
  let currentInt : ℤ := if currentInt > 99 then 99 else currentInt
  let c : Nat := currentInt.toNat
  let dp4 : Bool := if charging then (if p.1 = 1 then false else true) else true
  { s with
    toggleState := p.1
    lastDisplayFlash := p.2
    displayBuffer :=
      upd6 (upd6 (upd6 s.displayBuffer 3 (c / 100 % 10)) 4 (c / 10 % 10)) 5 (c % 10)
    decimalPoints :=
      upd6 (upd6 (upd6 s.decimalPoints 4 dp4) 3 false) 5 false }

/-! ### Test-pattern updaters (invoked from `refresh` when `testMode`) -/

/-- `void updateTestPattern()`. -/
def updateTestPattern (s : DisplayState) (now : Nat) : DisplayState :=
  let elapsed := usub32 now s.testModeStartTime
  let v := elapsed / 1000 % 10
  { s with
    testDigitValue := v
    displayBuffer := fun _ => v
    decimalPoints := fun _ => true }

/-- `void updateGhostingTest()` (serial printing has no display effect and is
dropped; the float literals `12.3`, `-2.0`, `0.1` become exact rationals). -/
def updateGhostingTest (s : DisplayState) (now : Nat) : DisplayState :=
  let elapsed := usub32 now s.testModeStartTime
  let testIndex : Int := (elapsed / 2000 % 41 : Nat)
  let testCurrent : ℚ := -2 + testIndex * (1/10)
  let s := if testIndex ≠ s.lastTestIndex then { s with lastTestIndex := testIndex } else s
  setCurrent (setVoltage s (123/10)) testCurrent now

def startTestPattern (s : DisplayState) (now : Nat) : DisplayState :=
  { s with testMode := true, ghostingTestMode := false, testModeStartTime := now,
           testDigitValue := 0 }

def startGhostingTest (s : DisplayState) (now : Nat) : DisplayState :=
  { s with testMode := true, ghostingTestMode := true, testModeStartTime := now,
           lastTestIndex := -1 }

def stopTestPattern (s : DisplayState) : DisplayState :=
  { s with testMode := false, ghostingTestMode := false }

/-! ### GPIO side effects as an explicit event trace -/

/-- One Arduino GPIO call or busy-wait made by the driver. -/
inductive PinEv where
  | pinInput (p : Nat)
  | pinOutput (p : Nat)
  | writeHigh (p : Nat)
  | writeLow (p : Nat)
  | delayUs (n : Nat)
  deriving DecidableEq, Repr

/-- `void setAllPinsHighZ()` — `pinMode(charliePins[i], INPUT)` for all 9 pins. -/
def setAllPinsHighZ : List PinEv := charliePins.map PinEv.pinInput

/-- `void dischargeAllPins()` (compile-time dead: `DISCHARGE_PULSE` is 0). -/
def dischargeAllPins : List PinEv :=
  if DISCHARGE_PULSE > 0 then
    (charliePins.flatMap fun p => [PinEv.pinOutput p, PinEv.writeLow p])
      ++ [PinEv.delayUs DISCHARGE_PULSE] ++ setAllPinsHighZ
  else []

/-- `void lightSegment(uint8_t anode, uint8_t cathode)`. -/
def lightSegment (anode cathode : Nat) : List PinEv :=
  if anode = 255 ∨ cathode = 255 then []
  else
    setAllPinsHighZ ++
      [PinEv.pinOutput (pinAt anode), PinEv.pinOutput (pinAt cathode),
       PinEv.writeHigh (pinAt anode), PinEv.writeLow (pinAt cathode)]

/-- `void begin()`. -/
def beginTrace : List PinEv := setAllPinsHighZ

/-- One iteration of the `for (int seg = 0; seg < 8; seg++)` body of
`refresh()`, for the resolved digit `dd`, its glyph `pattern` and its
decimal-point flag `dp`. -/
def segChunk (dm : DigitMapT) (dd : Fin 6) (pattern : Nat) (dp : Bool) (seg : Fin 8) :
    List PinEv :=
  let shouldLight : Bool := if seg.val = 7 then dp else pattern.testBit seg.val
  if shouldLight then
    let anode := (dm dd seg).1
    let cathode := (dm dd seg).2
    setAllPinsHighZ ++ [PinEv.delayUs 15]
      ++ lightSegment anode cathode
      ++ [PinEv.delayUs DISPLAY_BRIGHTNESS]
      ++ setAllPinsHighZ
      ++ (if INTER_SEGMENT_DELAY > 0 then [PinEv.delayUs INTER_SEGMENT_DELAY] else [])
  else []

/-- The GPIO trace of the scan part of one `refresh()` call. -/
def scanDigitTrace (dm : DigitMapT) (dd : Fin 6) (pattern : Nat) (dp : Bool) : List PinEv :=
  ((List.finRange 8).flatMap (segChunk dm dd pattern dp))
    ++ setAllPinsHighZ
    ++ dischargeAllPins
    ++ (if INTER_DIGIT_DELAY > 0 then [PinEv.delayUs INTER_DIGIT_DELAY] else [])

/-- Lines 323–330 of `refresh()`: the `scanSequence` lookup is immediately
overwritten by the `REVERSE_SCAN` if/else (the first binding is dead, exactly
as in the source). -/
def resolveDisplayDigit (currentDigit : Fin 6) : Fin 6 :=
  let displayDigit := scanSequence.getD currentDigit.val 0
  if REVERSE_SCAN then ⟨5 - currentDigit.val, by omega⟩ else currentDigit

/-- `void refresh()`, parameterised by the segment-address table (the shipped
table is `digitMap`); `now` is `millis()`.  Returns the new state and the GPIO
trace of the call.  The glyph lookup `digitPatterns[displayBuffer[displayDigit]]`
is unchecked in C++ (see claim C2); it is totalised here with `getD _ 0`. -/
def refreshWith (dm : DigitMapT) (s : DisplayState) (now : Nat) : DisplayState × List PinEv :=
  let s := if s.testMode then
             (if s.ghostingTestMode then updateGhostingTest s now else updateTestPattern s now)
           else s
  let dd := resolveDisplayDigit s.currentDigit
  let pattern := digitPatterns.getD (s.displayBuffer dd) 0
  let trace := scanDigitTrace dm dd pattern (s.decimalPoints dd)
  ({ s with currentDigit := ⟨(s.currentDigit.val + 1) % 6, Nat.mod_lt _ (by omega)⟩ }, trace)

/-- `refresh()` with the shipped `digitMap`. -/
def refresh (s : DisplayState) (now : Nat) : DisplayState × List PinEv :=
  refreshWith digitMap s now

/-- State after `n` consecutive `refresh()` calls (all at millis value `now`). -/
def refreshN (s : DisplayState) (now : Nat) : Nat → DisplayState
  | 0 => s
  | n + 1 => refreshN (refresh s now).1 now n

/-- The digits displayed (resolved through lines 323–330) by `n` consecutive
`refresh()` calls starting from state `s`. -/
def visitedDigits (s : DisplayState) (now : Nat) : Nat → List Nat
  | 0 => []
  | n + 1 => (resolveDisplayDigit s.currentDigit).val :: visitedDigits (refresh s now).1 now n

/-! ### Observations on traces -/

/-- The segment-drive windows of a trace: each `writeHigh a; writeLow c`
immediately followed by a busy-wait of `n` µs is one window `(a, c, n)`. -/
def driveWindows : List PinEv → List (Nat × Nat × Nat)
  | PinEv.writeHigh a :: PinEv.writeLow c :: PinEv.delayUs n :: rest =>
      (a, c, n) :: driveWindows rest
  | _ :: rest => driveWindows rest
  | [] => []

/-- Total busy-wait time (µs) of a trace. -/
def totalDelay : List PinEv → Nat
  | PinEv.delayUs n :: rest => n + totalDelay rest
  | _ :: rest => totalDelay rest
  | [] => 0

/-- Glyph of symbol code `v` (spec side view of `digitPatterns`). -/
def glyphOf (v : Nat) : Nat := digitPatterns.getD v 0

/-- The drive windows a full scan pass over digit `d` showing symbol `v` with
decimal-point flag `dp` must produce, according to the spec: the pin pair
`digitMap[d][i]` for each set bit `i` of the glyph, plus the pair
`digitMap[d][7]` iff `dp`, each for the dwell time `DISPLAY_BRIGHTNESS`. -/
def expectedWindows (d : Fin 6) (v : Nat) (dp : Bool) : List (Nat × Nat × Nat) :=
  (List.finRange 8).filterMap fun seg =>
    if (if seg.val = 7 then dp else (glyphOf v).testBit seg.val) then
      some (pinAt (digitMap d seg).1, pinAt (digitMap d seg).2, DISPLAY_BRIGHTNESS)
    else none

/-- `expectedWindows` with one segment `skip` removed (used for a table in
which that segment's address is the absent sentinel). -/
def expectedWindowsSkip (d : Fin 6) (v : Nat) (dp : Bool) (skip : Fin 8) :
    List (Nat × Nat × Nat) :=
  (List.finRange 8).flatMap fun seg =>
    if seg ≠ skip ∧ (if seg.val = 7 then dp else (glyphOf v).testBit seg.val) then
      [(pinAt (digitMap d seg).1, pinAt (digitMap d seg).2, DISPLAY_BRIGHTNESS)]
    else []

/-- Point update of a segment-address table. -/
def updMap (dm : DigitMapT) (d : Fin 6) (seg : Fin 8) (p : Nat × Nat) : DigitMapT :=
  fun d' s' => if d' = d ∧ s' = seg then p else dm d' s'

/-! ### The ghosting-suppression (settle-time) checker

A trace is replayed against the physical pin model: `driven` is the set of
GPIO lines currently in `OUTPUT` mode, and `accZ` the busy-wait time
accumulated since all nine lines last became high impedance.  Every
transition from the all-high-impedance state into a drive (a `pinMode
OUTPUT` or a `digitalWrite`) must find at least `SETTLE_US` µs of
accumulated high-impedance time, so consecutive segment-drive windows are
always separated by an all-high-impedance interval of at least the settle
time. -/

/-- The hardcoded settle delay of `refresh()` (`delayMicroseconds(15)`). -/
def SETTLE_US : Nat := 15

structure ZScan where
  driven : Finset Nat
  accZ : Nat
  deriving DecidableEq

def zstep (st : ZScan) : PinEv → Option ZScan
  | PinEv.pinInput p =>
      let d := st.driven.erase p
      some ⟨d, if d = ∅ then (if st.driven = ∅ then st.accZ else 0) else 0⟩
  | PinEv.delayUs n =>
      some ⟨st.driven, if st.driven = ∅ then st.accZ + n else st.accZ⟩
  | PinEv.pinOutput p =>
      if st.driven = ∅ ∧ st.accZ < SETTLE_US then none
      else some ⟨insert p st.driven, 0⟩
  | PinEv.writeHigh _ => if st.driven = ∅ ∧ st.accZ < SETTLE_US then none else some st
  | PinEv.writeLow _ => if st.driven = ∅ ∧ st.accZ < SETTLE_US then none else some st

def zscanL : ZScan → List PinEv → Option ZScan
  | st, [] => some st
  | st, e :: rest =>
    match zstep st e with
    | some st' => zscanL st' rest
    | none => none

/-- A trace respects the settle-time invariant when replaying it from the
all-high-impedance reset state never hits a premature drive. -/
def settleOK (tr : List PinEv) : Bool := (zscanL ⟨∅, 0⟩ tr).isSome

/-! ### Spec-side voltage formatting -/

/-- The digits `setVoltage` must produce according to the spec: clamp the
voltage to [0, 99.9], round to the nearest tenth, and take the tens, ones
and tenths digits. -/
def roundTenthsClamped (v : ℚ) : Nat :=
  (⌊(max 0 (min (999/10) v)) * 10 + 1/2⌋).toNat

def specVoltageDigits (v : ℚ) : Nat × Nat × Nat :=
  let r := roundTenthsClamped v
  (r / 100 % 10, r / 10 % 10, r % 10)

/-! ### Helper lemmas -/

theorem upd6_eq {α : Type} (f : Fin 6 → α) (j : Nat) (v : α) (i : Fin 6) (h : i.val = j) :
    upd6 f j v i = v := by
  simp [upd6, h]

theorem upd6_ne {α : Type} (f : Fin 6 → α) (j : Nat) (v : α) (i : Fin 6) (h : i.val ≠ j) :
    upd6 f j v i = f i := by
  simp [upd6, h]

/-! ### C9 — out-of-range `setDigit` is a silent no-op -/

/-- C9: for every digit index `d ≥ 6` (any `uint8_t` value) and every symbol
value and decimal-point flag, `setDigit(d, value, dp)` leaves the entire
display state unchanged.  (The embedding is a total function, so there is no
exception or abort path at all.) -/
theorem c9_setDigit_out_of_range_noop (d value : Nat) (dp : Bool) (s : DisplayState)
    (h6 : 6 ≤ d) (h256 : d < 256) : setDigit s d value dp = s := by
  unfold setDigit
  rw [if_neg (by omega)]

theorem c9_witness :
    6 ≤ 6 ∧ 6 < 256 ∧ setDigit initState 6 13 true = initState :=
  ⟨by decide, by decide, c9_setDigit_out_of_range_noop 6 13 true initState (by decide) (by decide)⟩

theorem fin6_val0 : (0 : Fin 6).val = 0 := rfl

theorem fin6_val1 : (1 : Fin 6).val = 1 := rfl

theorem fin6_val2 : (2 : Fin 6).val = 2 := rfl

theorem fin6_val3 : (3 : Fin 6).val = 3 := rfl

theorem fin6_val4 : (4 : Fin 6).val = 4 := rfl

theorem fin6_val5 : (5 : Fin 6).val = 5 := rfl

/-! ### C10 — frame effect of the two formatters -/

/-- C10: `setVoltage` writes only buffer entries 0–2 and their decimal-point
flags (the current digits 3–5, their flags, the scan cursor, and all other
state are untouched), and `setCurrent` writes only entries 3–5, their flags
and the flash-toggle state (the voltage digits 0–2, their flags, the scan
cursor, and all other state are untouched). -/
theorem c10_formatter_frame (v c : ℚ) (now : Nat) (s : DisplayState) :
    ((setVoltage s v).displayBuffer 3 = s.displayBuffer 3
      ∧ (setVoltage s v).displayBuffer 4 = s.displayBuffer 4
      ∧ (setVoltage s v).displayBuffer 5 = s.displayBuffer 5
      ∧ (setVoltage s v).decimalPoints 3 = s.decimalPoints 3
      ∧ (setVoltage s v).decimalPoints 4 = s.decimalPoints 4
      ∧ (setVoltage s v).decimalPoints 5 = s.decimalPoints 5
      ∧ (setVoltage s v).currentDigit = s.currentDigit
      ∧ (setVoltage s v).toggleState = s.toggleState
      ∧ (setVoltage s v).lastDisplayFlash = s.lastDisplayFlash
      ∧ (setVoltage s v).testMode = s.testMode)
    ∧ ((setCurrent s c now).displayBuffer 0 = s.displayBuffer 0
      ∧ (setCurrent s c now).displayBuffer 1 = s.displayBuffer 1
      ∧ (setCurrent s c now).displayBuffer 2 = s.displayBuffer 2
      ∧ (setCurrent s c now).decimalPoints 0 = s.decimalPoints 0
      ∧ (setCurrent s c now).decimalPoints 1 = s.decimalPoints 1
      ∧ (setCurrent s c now).decimalPoints 2 = s.decimalPoints 2
      ∧ (setCurrent s c now).currentDigit = s.currentDigit
      ∧ (setCurrent s c now).testMode = s.testMode) := by
  refine ⟨⟨?_, ?_, ?_, ?_, ?_, ?_, ?_, ?_, ?_, ?_⟩, ?_, ?_, ?_, ?_, ?_, ?_, ?_, ?_⟩ <;>
    simp [setVoltage, setCurrent, upd6, fin6_val0, fin6_val1, fin6_val2, fin6_val3,
      fin6_val4, fin6_val5]

/-! ### C5 — `setCurrent(+0.0)` and the charging flash

The claim asserts that two `setCurrent(+0.0)` calls spaced at least
`FLASH_INTERVAL_MS` apart leave the decimal-point flag at index 4 with
opposite values.  In the code `charging = (current > 0)` is strict, so a
zero current takes the non-charging branch and the flag is set to `true` on
every call, whatever the spacing. -/

/-- C5 counterexample: from the initial state, `setCurrent(0)` at millis 1000
and again at millis 1400 (exactly the flash interval apart) leave the flag
`true` both times — not opposite values as the claim states. -/
theorem c5_counterexample :
    FLASH_INTERVAL_MS ≤ usub32 1400 1000
      ∧ (setCurrent initState 0 1000).decimalPoints 4 = true
      ∧ (setCurrent (setCurrent initState 0 1000) 0 1400).decimalPoints 4 = true := by
  refine ⟨by decide, ?_, ?_⟩ <;> decide

/-- C5 amended: `setCurrent(+0.0)` is treated as not charging (`charging`
requires a strictly positive current), so every such call sets the
decimal-point flag at index 4 to `true`; across any two calls the flag is
`true` both times, regardless of how far apart in wall-clock time they are. -/
theorem c5_setCurrent_zero_dp_steady (s : DisplayState) (now : Nat) :
    (setCurrent s 0 now).decimalPoints 4 = true := by
  simp [setCurrent, upd6, fin6_val3, fin6_val4, fin6_val5]

/-! ### C2 — symbol codes are stored unchecked -/

/-- C2: `setDigit` range-checks only the digit index, not the symbol value:
`setDigit(0, 13, false)` stores the out-of-domain code 13 in the display
buffer, and the glyph table has no entry at index 13 (`digitPatterns` has 13
entries, indices 0–12), so the unchecked C++ lookup
`digitPatterns[displayBuffer[displayDigit]]` in `refresh()` reads out of
bounds; there is no clamping write path and no range-check branch in
`refresh()`. -/
theorem c2_setDigit_stores_out_of_domain :
    (setDigit initState 0 13 false).displayBuffer 0 = 13
      ∧ digitPatterns.get? 13 = none := by
  refine ⟨?_, by decide⟩
  decide

/-! ### C1 — the scan order ignores `scanSequence` -/

/-- C1: starting from the reset cursor, six `refresh()` calls visit the
digits in linear order `[0,1,2,3,4,5]` and return the cursor to its start —
but the configured permutation `scanSequence = [5,4,3,2,1,0]` is *not* the
order used: the lookup `scanSequence[currentDigit]` on line 324 is dead,
overwritten by the `REVERSE_SCAN` if/else on lines 326–330 (with
`REVERSE_SCAN == false` the displayed digit is just `currentDigit`). -/
theorem c1_refresh_ignores_scanSequence :
    visitedDigits initState 0 6 = [0, 1, 2, 3, 4, 5]
      ∧ scanSequence = [5, 4, 3, 2, 1, 0]
      ∧ visitedDigits initState 0 6 ≠ scanSequence
      ∧ (refreshN initState 0 6).currentDigit = initState.currentDigit
      ∧ (∀ cur : Fin 6, resolveDisplayDigit cur = cur) := by
  refine ⟨by decide, by decide, by decide, by decide, ?_⟩
  intro cur
  simp [resolveDisplayDigit, REVERSE_SCAN]

/-! ### C6 — charging flash is driven by wall-clock time -/

/-- The flash-toggle value after one `setCurrent` call at millis `now`. -/
def newToggle (s : DisplayState) (now : Nat) : Nat :=
  if usub32 now s.lastDisplayFlash ≥ FLASH_INTERVAL_MS then
    (if s.toggleState = 0 then 1 else 0)
  else s.toggleState

theorem setCurrent_toggleState (s : DisplayState) (c : ℚ) (now : Nat) :
    (setCurrent s c now).toggleState = newToggle s now := by
  simp only [setCurrent, newToggle]
  split <;> rfl

theorem setCurrent_lastDisplayFlash (s : DisplayState) (c : ℚ) (now : Nat) :
    (setCurrent s c now).lastDisplayFlash =
      if usub32 now s.lastDisplayFlash ≥ FLASH_INTERVAL_MS then now
      else s.lastDisplayFlash := by
  simp only [setCurrent]
  split <;> rfl

theorem newToggle_le_one (s : DisplayState) (now : Nat) (h : s.toggleState ≤ 1) :
    newToggle s now ≤ 1 := by
  unfold newToggle
  split
  · split <;> omega
  · exact h

theorem setCurrent_dp4_pos (s : DisplayState) (c : ℚ) (now : Nat) (hc : 0 < c) :
    (setCurrent s c now).decimalPoints 4 =
      (if newToggle s now = 1 then false else true) := by
  simp only [setCurrent, newToggle, upd6, fin6_val3, fin6_val4, fin6_val5]
  by_cases hu : usub32 now s.lastDisplayFlash ≥ FLASH_INTERVAL_MS <;>
    simp [hu, hc]

theorem setCurrent_dp4_nonpos (s : DisplayState) (c : ℚ) (now : Nat) (hc : ¬ 0 < c) :
    (setCurrent s c now).decimalPoints 4 = true := by
  simp only [setCurrent, upd6, fin6_val3, fin6_val4, fin6_val5]
  simp [hc]

/-- C6: for a strictly positive (charging) current, the decimal-point flag
after the current's ones digit (index 4) alternates as a function of elapsed
`millis()` time: a second call made at least `FLASH_INTERVAL_MS` after the
toggle timestamp left by the first call flips the flag, a second call made
sooner leaves it unchanged; for a negative (discharging) current every call
sets the flag steadily `true`.  `toggleState ≤ 1` holds in every reachable
state (it is 0 initially and only ever written 0 or 1). -/
theorem c6_setCurrent_flash_wallclock (c : ℚ) (s : DisplayState) (t1 t2 : Nat)
    (hts : s.toggleState ≤ 1) :
    (0 < c →
      (usub32 t2 (setCurrent s c t1).lastDisplayFlash ≥ FLASH_INTERVAL_MS →
        (setCurrent (setCurrent s c t1) c t2).decimalPoints 4
          = !((setCurrent s c t1).decimalPoints 4))
      ∧ (usub32 t2 (setCurrent s c t1).lastDisplayFlash < FLASH_INTERVAL_MS →
        (setCurrent (setCurrent s c t1) c t2).decimalPoints 4
          = (setCurrent s c t1).decimalPoints 4))
    ∧ (c < 0 → (setCurrent s c t1).decimalPoints 4 = true) := by
  constructor
  · intro hc
    have h1 := setCurrent_dp4_pos s c t1 hc
    have h2 := setCurrent_dp4_pos (setCurrent s c t1) c t2 hc
    have ht1 := setCurrent_toggleState s c t1
    have hle : newToggle s t1 ≤ 1 := newToggle_le_one s t1 hts
    constructor <;> intro hT
    · have e2 : newToggle (setCurrent s c t1) t2
          = if (setCurrent s c t1).toggleState = 0 then 1 else 0 := by
        unfold newToggle
        rw [if_pos hT]
      rw [h2, e2, h1, ht1]
      rcases Nat.le_one_iff_eq_zero_or_eq_one.mp hle with h0 | h0 <;> simp [h0]
    · have hT' : ¬ usub32 t2 (setCurrent s c t1).lastDisplayFlash ≥ FLASH_INTERVAL_MS := by
        omega
      have e2 : newToggle (setCurrent s c t1) t2 = (setCurrent s c t1).toggleState := by
        unfold newToggle
        rw [if_neg hT']
      rw [h2, e2, h1, ht1]
  · intro hc
    exact setCurrent_dp4_nonpos s c t1 (by intro h; linarith)

theorem c6_witness :
    initState.toggleState ≤ 1
      ∧ (0:ℚ) < 2
      ∧ usub32 900 (setCurrent initState 2 500).lastDisplayFlash ≥ FLASH_INTERVAL_MS
      ∧ (setCurrent (setCurrent initState 2 500) 2 900).decimalPoints 4
          = !((setCurrent initState 2 500).decimalPoints 4) :=
  ⟨by decide, by decide, by decide,
    ((c6_setCurrent_flash_wallclock 2 initState 500 900 (by decide)).1 (by decide)).1 (by decide)⟩

/-! ### C4 — voltage formatting -/

/-- The clamped-and-truncated integer computed by `setVoltage` agrees with
the spec-side clamp-to-[0, 99.9]-then-round-to-nearest-tenth value. -/
theorem clampNat_eq (v : ℚ) :
    (if (if cppTruncInt (v * 10 + 1/2) > 999 then 999 else cppTruncInt (v * 10 + 1/2)) < 0 then 0
      else if cppTruncInt (v * 10 + 1/2) > 999 then 999 else cppTruncInt (v * 10 + 1/2)).toNat
      = roundTenthsClamped v := by
  unfold roundTenthsClamped cppTruncInt
  rcases lt_or_le v 0 with hv | hv
  · have hmin : min (999/10 : ℚ) v = v := min_eq_right (by linarith)
    have hmax : max (0 : ℚ) v = 0 := max_eq_left hv.le
    rw [hmin, hmax]
    have hz : (⌊(0 : ℚ) * 10 + 1/2⌋ : ℤ) = 0 := by norm_num
    rw [hz]
    rcases lt_or_le (v * 10 + 1/2) 0 with hq | hq
    · rw [if_pos hq]
      have hc : (⌈v * 10 + 1/2⌉ : ℤ) ≤ 0 := by
        rw [Int.ceil_le]
        push_cast
        linarith
      split_ifs <;> omega
    · rw [if_neg (not_lt.mpr hq)]
      have h0 : (0:ℤ) ≤ ⌊v * 10 + 1/2⌋ := Int.floor_nonneg.mpr hq
      have h1 : ⌊v * 10 + 1/2⌋ < 1 := by
        rw [Int.floor_lt]
        push_cast
        linarith
      split_ifs <;> omega
  · have hq : ¬ (v * 10 + 1/2 < 0) := by
      push_neg
      linarith
    rw [if_neg hq]
    have h0 : (0:ℤ) ≤ ⌊v * 10 + 1/2⌋ := Int.floor_nonneg.mpr (not_lt.mp hq)
    rcases le_or_lt v (999/10) with hv9 | hv9
    · have hmin : min (999/10 : ℚ) v = v := min_eq_right hv9
      have hmax : max (0 : ℚ) v = v := max_eq_right hv
      rw [hmin, hmax]
      have h999 : ⌊v * 10 + 1/2⌋ ≤ 999 := by
        have hlt : ⌊v * 10 + 1/2⌋ < 1000 := by
          rw [Int.floor_lt]
          push_cast
          linarith
        omega
      split_ifs <;> omega
    · have hmin : min (999/10 : ℚ) v = 999/10 := min_eq_left hv9.le
      have hmax : max (0 : ℚ) (999/10 : ℚ) = 999/10 := max_eq_right (by norm_num)
      rw [hmin, hmax]
      have hspec : (⌊(999/10 : ℚ) * 10 + 1/2⌋ : ℤ) = 999 := by
        rw [Int.floor_eq_iff]
        push_cast
        norm_num
      have hge : (999:ℤ) ≤ ⌊v * 10 + 1/2⌋ := by
        rw [Int.le_floor]
        push_cast
        linarith
      split_ifs <;> omega

/-- C4: for every voltage value, `setVoltage` writes buffer entries 0, 1, 2
with the tens, ones and tenths digits of the value clamped to [0, 99.9] and
rounded to the nearest tenth, and sets the decimal-point flags of entries
0–2 to false, true, false; in particular 12.34 formats as digits (1,2,3)
(decimal point at index 1 only) and 150.0 clamps to digits (9,9,9). -/
theorem c4_setVoltage_format (v : ℚ) (s : DisplayState) :
    (((setVoltage s v).displayBuffer 0, (setVoltage s v).displayBuffer 1,
        (setVoltage s v).displayBuffer 2) = specVoltageDigits v
      ∧ (setVoltage s v).decimalPoints 0 = false
      ∧ (setVoltage s v).decimalPoints 1 = true
      ∧ (setVoltage s v).decimalPoints 2 = false)
    ∧ specVoltageDigits (1234/100) = (1, 2, 3)
    ∧ specVoltageDigits 150 = (9, 9, 9) := by
  refine ⟨⟨?_, ?_, ?_, ?_⟩, ?_, ?_⟩
  · have h := clampNat_eq v
    simp only [setVoltage, specVoltageDigits, upd6, fin6_val0, fin6_val1, fin6_val2]
    rw [h]
    norm_num
  · simp [setVoltage, upd6, fin6_val0, fin6_val1, fin6_val2]
  · simp [setVoltage, upd6, fin6_val0, fin6_val1, fin6_val2]
  · simp [setVoltage, upd6, fin6_val0, fin6_val1, fin6_val2]
  · have hmin : min (999/10 : ℚ) (1234/100) = 1234/100 := min_eq_right (by norm_num)
    have hmax : max (0 : ℚ) (1234/100 : ℚ) = 1234/100 := max_eq_right (by norm_num)
    have hfl : (⌊(1234/100 : ℚ) * 10 + 1/2⌋ : ℤ) = 123 := by
      rw [Int.floor_eq_iff]
      push_cast
      norm_num
    simp only [specVoltageDigits, roundTenthsClamped, hmin, hmax, hfl]
    decide
  · have hmin : min (999/10 : ℚ) (150 : ℚ) = 999/10 := min_eq_left (by norm_num)
    have hmax : max (0 : ℚ) (999/10 : ℚ) = 999/10 := max_eq_right (by norm_num)
    have hfl : (⌊(999/10 : ℚ) * 10 + 1/2⌋ : ℤ) = 999 := by
      rw [Int.floor_eq_iff]
      push_cast
      norm_num
    simp only [specVoltageDigits, roundTenthsClamped, hmin, hmax, hfl]
    decide

/-! ### C3 — one scan pass drives exactly the glyph's segments -/

theorem resolveDisplayDigit_id (cur : Fin 6) : resolveDisplayDigit cur = cur := by
  simp [resolveDisplayDigit, REVERSE_SCAN]

/-- With test mode off, the trace of one `refresh()` is the scan of the
resolved digit's buffered glyph and decimal point. -/
theorem refresh_trace_of_not_test (dm : DigitMapT) (s : DisplayState) (now : Nat)
    (h : s.testMode = false) :
    (refreshWith dm s now).2 = scanDigitTrace dm (resolveDisplayDigit s.currentDigit)
        (digitPatterns.getD (s.displayBuffer (resolveDisplayDigit s.currentDigit)) 0)
        (s.decimalPoints (resolveDisplayDigit s.currentDigit)) := by
  simp [refreshWith, h]

theorem scanWindows_aux :
    ∀ d : Fin 6, ∀ v : Fin 13, ∀ dp : Bool,
      driveWindows (scanDigitTrace digitMap d (digitPatterns.getD v.val 0) dp)
        = expectedWindows d v.val dp := by decide

/-- C3: for every digit `d`, every symbol `s` in the glyph domain and every
decimal-point flag, `setDigit(d, s, dp)` followed by one scan pass over digit
`d` (a `refresh()` with the cursor at `d`, test mode off) drives exactly the
pin pairs `digitMap[d][i]` for the set bits `i` of the glyph, plus the pair
`digitMap[d][7]` iff `dp`, each for the dwell time `DISPLAY_BRIGHTNESS`, and
drives no other pin pair. -/
theorem c3_scan_drives_glyph_segments (d : Fin 6) (v : Nat) (dp : Bool)
    (s : DisplayState) (now : Nat)
    (hv : v < 13) (hcur : s.currentDigit = d) (htm : s.testMode = false) :
    driveWindows (refresh (setDigit s d.val v dp) now).2 = expectedWindows d v dp := by
  have hs' : setDigit s d.val v dp =
      { s with displayBuffer := upd6 s.displayBuffer d.val v
               decimalPoints := upd6 s.decimalPoints d.val dp } := by
    unfold setDigit
    rw [if_pos d.isLt]
  rw [refresh, refresh_trace_of_not_test _ _ _ (by rw [hs']; exact htm)]
  rw [hs']
  simp only [resolveDisplayDigit_id, hcur]
  rw [upd6_eq _ _ _ _ rfl, upd6_eq _ _ _ _ rfl]
  exact scanWindows_aux d ⟨v, hv⟩ dp

theorem c3_witness :
    (8 : Nat) < 13 ∧ initState.currentDigit = 0 ∧ initState.testMode = false ∧
      driveWindows (refresh (setDigit initState (0 : Fin 6).val 8 true) 0).2
        = expectedWindows 0 8 true :=
  ⟨by decide, by decide, by decide,
    c3_scan_drives_glyph_segments 0 8 true initState 0 (by decide) (by decide) (by decide)⟩

/-! ### C7 — absent (sentinel) segment addresses

The shipped `digitMap` has no absent entries, so the sentinel path is
exercised on the shipped table with one entry replaced by `(255, 255)`. -/

theorem digitMap_not_sentinel :
    ∀ (d : Fin 6) (seg : Fin 8), (digitMap d seg).1 ≠ 255 ∧ (digitMap d seg).2 ≠ 255 := by
  decide

/-- The drive window one segment chunk contributes. -/
def windowOf (dm : DigitMapT) (pattern : Nat) (dp : Bool) (d : Fin 6) (seg : Fin 8) :
    List (Nat × Nat × Nat) :=
  if (if seg.val = 7 then dp else pattern.testBit seg.val) then
    (if (dm d seg).1 = 255 ∨ (dm d seg).2 = 255 then []
     else [(pinAt (dm d seg).1, pinAt (dm d seg).2, DISPLAY_BRIGHTNESS)])
  else []

theorem driveWindows_chunk (dm : DigitMapT) (d : Fin 6) (pattern : Nat) (dp : Bool)
    (seg : Fin 8) (rest : List PinEv) :
    driveWindows (segChunk dm d pattern dp seg ++ rest)
      = windowOf dm pattern dp d seg ++ driveWindows rest := by
  cases hb : (if seg.val = 7 then dp else pattern.testBit seg.val) with
  | false => simp [segChunk, windowOf, hb]
  | true =>
    by_cases hs : ((dm d seg).1 = 255 ∨ (dm d seg).2 = 255)
    · simp [segChunk, windowOf, lightSegment, hb, hs, setAllPinsHighZ, charliePins,
        INTER_SEGMENT_DELAY, driveWindows]
    · simp [segChunk, windowOf, lightSegment, hb, hs, setAllPinsHighZ, charliePins,
        INTER_SEGMENT_DELAY, DISPLAY_BRIGHTNESS, driveWindows]

/-- The drive windows of one scan pass are the per-segment windows in
segment order. -/
theorem driveWindows_scan (dm : DigitMapT) (d : Fin 6) (pattern : Nat) (dp : Bool) :
    driveWindows (scanDigitTrace dm d pattern dp)
      = (List.finRange 8).flatMap (windowOf dm pattern dp d) := by
  have tail0 : driveWindows (setAllPinsHighZ ++ (dischargeAllPins
      ++ (if INTER_DIGIT_DELAY > 0 then [PinEv.delayUs INTER_DIGIT_DELAY] else []))) = [] := by
    decide
  suffices h : ∀ segs : List (Fin 8),
      driveWindows (segs.flatMap (segChunk dm d pattern dp)
          ++ (setAllPinsHighZ ++ (dischargeAllPins
            ++ (if INTER_DIGIT_DELAY > 0 then [PinEv.delayUs INTER_DIGIT_DELAY] else []))))
        = segs.flatMap (windowOf dm pattern dp d) by
    have h8 := h (List.finRange 8)
    unfold scanDigitTrace
    rw [List.append_assoc, List.append_assoc]
    exact h8
  intro segs
  induction segs with
  | nil => simpa using tail0
  | cons sg rest ih =>
    rw [List.flatMap_cons, List.flatMap_cons, List.append_assoc, driveWindows_chunk, ih]

theorem totalDelay_append (a b : List PinEv) :
    totalDelay (a ++ b) = totalDelay a + totalDelay b := by
  induction a with
  | nil => simp [totalDelay]
  | cons e rest ih => cases e <;> simp [totalDelay, ih, Nat.add_assoc]

theorem totalDelay_lightSegment (a c : Nat) : totalDelay (lightSegment a c) = 0 := by
  unfold lightSegment
  split
  · rfl
  · simp [totalDelay, setAllPinsHighZ, charliePins]

/-- A segment chunk consumes the settle plus dwell time exactly when the
segment should light, whatever its pin pair is — the sentinel check inside
`lightSegment` does not skip the two `delayMicroseconds` calls in `refresh`. -/
theorem totalDelay_chunk (dm : DigitMapT) (d : Fin 6) (pattern : Nat) (dp : Bool)
    (seg : Fin 8) :
    totalDelay (segChunk dm d pattern dp seg)
      = if (if seg.val = 7 then dp else pattern.testBit seg.val) then
          SETTLE_US + DISPLAY_BRIGHTNESS
        else 0 := by
  cases hb : (if seg.val = 7 then dp else pattern.testBit seg.val) with
  | false => simp [segChunk, hb, totalDelay]
  | true =>
    simp [segChunk, hb, totalDelay_append, totalDelay, setAllPinsHighZ, charliePins,
      totalDelay_lightSegment, INTER_SEGMENT_DELAY, SETTLE_US]

theorem totalDelay_flatMap {α : Type} (f : α → List PinEv) (l : List α) :
    totalDelay (l.flatMap f) = (l.map fun x => totalDelay (f x)).sum := by
  induction l with
  | nil => simp [totalDelay]
  | cons x rest ih => rw [List.flatMap_cons, totalDelay_append, ih, List.map_cons, List.sum_cons]

/-- The total busy-wait time of a scan pass does not depend on the
segment-address table at all. -/
theorem totalDelay_scan_map_indep (dm1 dm2 : DigitMapT) (d : Fin 6) (pattern : Nat)
    (dp : Bool) :
    totalDelay (scanDigitTrace dm1 d pattern dp)
      = totalDelay (scanDigitTrace dm2 d pattern dp) := by
  rw [scanDigitTrace, scanDigitTrace]
  rw [totalDelay_append, totalDelay_append, totalDelay_append, totalDelay_append,
    totalDelay_append, totalDelay_append]
  rw [totalDelay_flatMap, totalDelay_flatMap]
  simp only [totalDelay_chunk]

/-- C7 counterexample: replace segment A of digit 0 by the absent sentinel
and scan digit 0 showing glyph 8 (all seven segments lit).  The absent
segment is indeed never driven (6 windows instead of 7), but the pass still
consumes 835 µs of busy-wait — exactly the same as with the segment present —
so the claim that the segment is skipped *without consuming its dwell time*
is false: the settle (15 µs) and dwell (100 µs) delays run regardless. -/
theorem c7_counterexample :
    driveWindows (refreshWith (updMap digitMap 0 0 (255, 255))
        (setDigit initState 0 8 false) 0).2
      = [(33, 4, 100), (33, 16, 100), (33, 17, 100), (33, 32, 100), (33, 18, 100), (33, 19, 100)]
    ∧ totalDelay (refreshWith (updMap digitMap 0 0 (255, 255))
        (setDigit initState 0 8 false) 0).2 = 835
    ∧ totalDelay (refreshWith digitMap (setDigit initState 0 8 false) 0).2 = 835
    ∧ driveWindows (refreshWith digitMap (setDigit initState 0 8 false) 0).2
      = [(33, 25, 100), (33, 4, 100), (33, 16, 100), (33, 17, 100), (33, 32, 100), (33, 18, 100), (33, 19, 100)] := by
  refine ⟨?_, ?_, ?_, ?_⟩ <;> decide

/-- C7 amended: for every digit `d`, segment `seg`, in-domain glyph code and
decimal-point flag, scanning digit `d` against the table with entry
`(d, seg)` marked absent drives exactly the windows of the present segments
(the absent pin pair is never driven, whatever the glyph content), but the
pass does **not** skip the absent segment's time: when that segment is lit
its settle and dwell delays still run, so the total busy-wait time equals
that of the fully populated table. -/
theorem c7_sentinel_never_driven_but_dwell_consumed (d : Fin 6) (seg : Fin 8)
    (v : Nat) (dp : Bool) (s : DisplayState) (now : Nat)
    (_hv : v < 13) (hcur : s.currentDigit = d) (htm : s.testMode = false) :
    driveWindows (refreshWith (updMap digitMap d seg (255, 255))
        (setDigit s d.val v dp) now).2
      = expectedWindowsSkip d v dp seg
    ∧ totalDelay (refreshWith (updMap digitMap d seg (255, 255))
        (setDigit s d.val v dp) now).2
      = totalDelay (refreshWith digitMap (setDigit s d.val v dp) now).2 := by
  have hs' : setDigit s d.val v dp =
      { s with displayBuffer := upd6 s.displayBuffer d.val v
               decimalPoints := upd6 s.decimalPoints d.val dp } := by
    unfold setDigit
    rw [if_pos d.isLt]
  have htm' : (setDigit s d.val v dp).testMode = false := by rw [hs']; exact htm
  constructor
  · rw [refresh_trace_of_not_test _ _ _ htm', hs']
    simp only [resolveDisplayDigit_id, hcur]
    rw [upd6_eq _ _ _ _ rfl, upd6_eq _ _ _ _ rfl, driveWindows_scan]
    have hfun : ∀ sg : Fin 8,
        windowOf (updMap digitMap d seg (255, 255)) (digitPatterns.getD v 0) dp d sg
          = (if sg ≠ seg ∧ (if sg.val = 7 then dp else (glyphOf v).testBit sg.val) then
              [(pinAt (digitMap d sg).1, pinAt (digitMap d sg).2, DISPLAY_BRIGHTNESS)]
             else []) := by
      intro sg
      by_cases hsg : sg = seg
      · subst hsg
        simp [windowOf, updMap, glyphOf]
      · have hvalid := digitMap_not_sentinel d sg
        simp [windowOf, updMap, hsg, glyphOf, hvalid.1, hvalid.2]
    rw [funext hfun]
    rfl
  · rw [refresh_trace_of_not_test _ _ _ htm', refresh_trace_of_not_test _ _ _ htm']
    exact totalDelay_scan_map_indep _ _ _ _ _

theorem c7_witness :
    (8 : Nat) < 13 ∧ initState.currentDigit = 0 ∧ initState.testMode = false ∧
      (driveWindows (refreshWith (updMap digitMap 0 3 (255, 255))
          (setDigit initState (0 : Fin 6).val 8 false) 0).2
        = expectedWindowsSkip 0 8 false 3
      ∧ totalDelay (refreshWith (updMap digitMap 0 3 (255, 255))
          (setDigit initState (0 : Fin 6).val 8 false) 0).2
        = totalDelay (refreshWith digitMap (setDigit initState (0 : Fin 6).val 8 false) 0).2) :=
  ⟨by decide, by decide, by decide,
    c7_sentinel_never_driven_but_dwell_consumed 0 3 8 false initState 0
      (by decide) (by decide) (by decide)⟩

/-! ### C8 — every drive is preceded by a settled all-high-impedance interval -/

theorem zscanL_append (l1 l2 : List PinEv) (st : ZScan) :
    zscanL st (l1 ++ l2) = (zscanL st l1).bind fun st2 => zscanL st2 l2 := by
  induction l1 generalizing st with
  | nil => simp [zscanL]
  | cons e rest ih =>
    rw [List.cons_append]
    cases h : zstep st e with
    | none => simp [zscanL, h]
    | some st2 => simp [zscanL, h, ih]

theorem zscanL_inputs_empty (l : List Nat) (a : Nat) :
    zscanL ⟨∅, a⟩ (l.map PinEv.pinInput) = some ⟨∅, a⟩ := by
  induction l with
  | nil => simp [zscanL]
  | cons p rest ih => simp [zscanL, zstep, Finset.erase_empty, ih]

theorem zscanL_inputs_any (l : List Nat) (st : ZScan) :
    ∃ st2 : ZScan, zscanL st (l.map PinEv.pinInput) = some st2
      ∧ st2.driven = st.driven \ l.toFinset := by
  induction l generalizing st with
  | nil => exact ⟨st, by simp [zscanL]⟩
  | cons p rest ih =>
    obtain ⟨st2, h2, hd⟩ := ih ⟨st.driven.erase p,
      if st.driven.erase p = ∅ then (if st.driven = ∅ then st.accZ else 0) else 0⟩
    refine ⟨st2, by simp [zscanL, zstep, h2], ?_⟩
    rw [hd]
    ext x
    simp [Finset.mem_sdiff, Finset.mem_erase, Finset.mem_insert]
    tauto

theorem digitMap_pins_mem :
    ∀ (d : Fin 6) (seg : Fin 8),
      pinAt (digitMap d seg).1 ∈ charliePins.toFinset
        ∧ pinAt (digitMap d seg).2 ∈ charliePins.toFinset := by
  decide

theorem zscanL_cons_some {st st' : ZScan} {e : PinEv} (h : zstep st e = some st')
    (l : List PinEv) : zscanL st (e :: l) = zscanL st' l := by
  simp [zscanL, h]

/-- Scanning `setAllPinsHighZ` from the all-idle state keeps it. -/
theorem zscanL_highZ (a : Nat) : zscanL ⟨∅, a⟩ setAllPinsHighZ = some ⟨∅, a⟩ :=
  zscanL_inputs_empty charliePins a

theorem zscanL_delay (a n : Nat) :
    zscanL ⟨∅, a⟩ [PinEv.delayUs n] = some ⟨∅, a + n⟩ := by
  simp [zscanL, zstep]

theorem zscan_driveBlock (pa pc acc : Nat) (hacc : SETTLE_US ≤ acc)
    (hpa : pa ∈ charliePins.toFinset) (hpc : pc ∈ charliePins.toFinset) :
    ∃ a', zscanL ⟨∅, acc⟩
        ([PinEv.pinOutput pa, PinEv.pinOutput pc, PinEv.writeHigh pa, PinEv.writeLow pc]
          ++ [PinEv.delayUs DISPLAY_BRIGHTNESS] ++ setAllPinsHighZ)
      = some ⟨∅, a'⟩ := by
  have hnl : ¬ acc < SETTLE_US := by omega
  have h1 : zstep ⟨∅, acc⟩ (PinEv.pinOutput pa) = some ⟨insert pa ∅, 0⟩ := by
    simp [zstep, hnl]
  have h2 : zstep ⟨insert pa ∅, 0⟩ (PinEv.pinOutput pc)
      = some ⟨insert pc (insert pa ∅), 0⟩ := by
    simp [zstep, Finset.insert_ne_empty]
  have h3 : zstep ⟨insert pc (insert pa ∅), 0⟩ (PinEv.writeHigh pa)
      = some ⟨insert pc (insert pa ∅), 0⟩ := by
    simp [zstep, Finset.insert_ne_empty]
  have h4 : zstep ⟨insert pc (insert pa ∅), 0⟩ (PinEv.writeLow pc)
      = some ⟨insert pc (insert pa ∅), 0⟩ := by
    simp [zstep, Finset.insert_ne_empty]
  have h5 : zstep ⟨insert pc (insert pa ∅), 0⟩ (PinEv.delayUs DISPLAY_BRIGHTNESS)
      = some ⟨insert pc (insert pa ∅), 0⟩ := by
    simp [zstep, Finset.insert_ne_empty]
  have hsub : insert pc (insert pa ∅) ⊆ charliePins.toFinset := by
    intro x hx
    rcases Finset.mem_insert.mp hx with h | h
    · exact h ▸ hpc
    · rcases Finset.mem_insert.mp h with h' | h'
      · exact h' ▸ hpa
      · simp at h'
  obtain ⟨st2, h6, hd⟩ := zscanL_inputs_any charliePins ⟨insert pc (insert pa ∅), 0⟩
  obtain ⟨dr, ac⟩ := st2
  simp only at hd
  have hempty : dr = ∅ := by
    rw [hd]
    exact Finset.sdiff_eq_empty_iff_subset.mpr hsub
  subst hempty
  refine ⟨ac, ?_⟩
  show zscanL ⟨∅, acc⟩ (PinEv.pinOutput pa :: PinEv.pinOutput pc :: PinEv.writeHigh pa ::
    PinEv.writeLow pc :: PinEv.delayUs DISPLAY_BRIGHTNESS :: setAllPinsHighZ) = some ⟨∅, ac⟩
  rw [zscanL_cons_some h1, zscanL_cons_some h2, zscanL_cons_some h3, zscanL_cons_some h4,
    zscanL_cons_some h5]
  exact h6

theorem zscan_chunk (d : Fin 6) (pattern : Nat) (dp : Bool) (seg : Fin 8) (a : Nat) :
    ∃ a', zscanL ⟨∅, a⟩ (segChunk digitMap d pattern dp seg) = some ⟨∅, a'⟩ := by
  cases hb : (if seg.val = 7 then dp else pattern.testBit seg.val) with
  | false => exact ⟨a, by simp [segChunk, hb, zscanL]⟩
  | true =>
    have hvalid := digitMap_not_sentinel d seg
    have hmem := digitMap_pins_mem d seg
    obtain ⟨a', hblock⟩ := zscan_driveBlock (pinAt (digitMap d seg).1)
      (pinAt (digitMap d seg).2) (a + 15) (by unfold SETTLE_US; omega) hmem.1 hmem.2
    refine ⟨a', ?_⟩
    have hshape : segChunk digitMap d pattern dp seg
        = (setAllPinsHighZ ++ [PinEv.delayUs 15] ++ setAllPinsHighZ)
          ++ ([PinEv.pinOutput (pinAt (digitMap d seg).1),
                PinEv.pinOutput (pinAt (digitMap d seg).2),
                PinEv.writeHigh (pinAt (digitMap d seg).1),
                PinEv.writeLow (pinAt (digitMap d seg).2)]
              ++ [PinEv.delayUs DISPLAY_BRIGHTNESS] ++ setAllPinsHighZ) := by
      simp [segChunk, hb, lightSegment, hvalid.1, hvalid.2, INTER_SEGMENT_DELAY]
    have hpre : zscanL ⟨∅, a⟩ (setAllPinsHighZ ++ [PinEv.delayUs 15] ++ setAllPinsHighZ)
        = some ⟨∅, a + 15⟩ := by
      rw [zscanL_append, zscanL_append, zscanL_highZ]
      simp [zscanL_delay, zscanL_highZ]
    rw [hshape, zscanL_append, hpre]
    exact hblock

theorem zscan_chunks (d : Fin 6) (pattern : Nat) (dp : Bool) (segs : List (Fin 8)) :
    ∀ a : Nat, ∃ a',
      zscanL ⟨∅, a⟩ (segs.flatMap (segChunk digitMap d pattern dp)) = some ⟨∅, a'⟩ := by
  induction segs with
  | nil => exact fun a => ⟨a, by simp [zscanL]⟩
  | cons sg rest ih =>
    intro a
    obtain ⟨a1, h1⟩ := zscan_chunk d pattern dp sg a
    obtain ⟨a2, h2⟩ := ih a1
    refine ⟨a2, ?_⟩
    rw [List.flatMap_cons, zscanL_append, h1]
    exact h2

theorem zscan_scanTrace (d : Fin 6) (pattern : Nat) (dp : Bool) (a : Nat) :
    ∃ a', zscanL ⟨∅, a⟩ (scanDigitTrace digitMap d pattern dp) = some ⟨∅, a'⟩ := by
  obtain ⟨a1, h1⟩ := zscan_chunks d pattern dp (List.finRange 8) a
  refine ⟨a1 + INTER_DIGIT_DELAY, ?_⟩
  unfold scanDigitTrace
  rw [zscanL_append, zscanL_append, zscanL_append, h1]
  show (zscanL ⟨∅, a1⟩ setAllPinsHighZ).bind _ = _
  rw [zscanL_highZ]
  show (zscanL ⟨∅, a1⟩ dischargeAllPins).bind _ = _
  rw [show (dischargeAllPins : List PinEv) = [] from rfl]
  show zscanL ⟨∅, a1⟩ (if INTER_DIGIT_DELAY > 0 then [PinEv.delayUs INTER_DIGIT_DELAY] else []) = _
  rw [if_pos (by unfold INTER_DIGIT_DELAY; omega)]
  exact zscanL_delay a1 INTER_DIGIT_DELAY

/-- Any single `refresh()` trace scans cleanly from any idle start state and
ends idle again. -/
theorem zscan_refresh (s : DisplayState) (now a : Nat) :
    ∃ a', zscanL ⟨∅, a⟩ (refresh s now).2 = some ⟨∅, a'⟩ := by
  unfold refresh refreshWith
  exact zscan_scanTrace _ _ _ a

/-- C8: over any number of `refresh()` calls (each from an arbitrary display
state with in-domain glyph codes, at an arbitrary millis value), the
concatenated GPIO trace satisfies the ghosting-suppression invariant checked
by `settleOK`: replaying pin modes event by event, every transition from the
all-high-impedance state into a drive (a `pinMode OUTPUT` or a
`digitalWrite`) happens only after at least `SETTLE_US` µs of accumulated
all-high-impedance busy-wait — hence between any two consecutive
segment-drive windows all 9 pins are in high impedance for at least the
settle time, and no two drive windows are adjacent without such an
interval. -/
theorem c8_settle_between_drives (L : List (DisplayState × Nat))
    (_hdom : ∀ p ∈ L, ∀ i : Fin 6, p.1.displayBuffer i < 13) :
    settleOK (L.flatMap fun p => (refresh p.1 p.2).2) = true := by
  unfold settleOK
  suffices h : ∀ (M : List (DisplayState × Nat)) (a : Nat), ∃ a',
      zscanL ⟨∅, a⟩ (M.flatMap fun p => (refresh p.1 p.2).2) = some ⟨∅, a'⟩ by
    obtain ⟨a', h'⟩ := h L 0
    rw [h']
    rfl
  intro M
  induction M with
  | nil => exact fun a => ⟨a, by simp [zscanL]⟩
  | cons q rest ih =>
    intro a
    obtain ⟨a1, h1⟩ := zscan_refresh q.1 q.2 a
    obtain ⟨a2, h2⟩ := ih a1
    refine ⟨a2, ?_⟩
    rw [List.flatMap_cons, zscanL_append, h1]
    exact h2

theorem c8_witness :
    (∀ p ∈ [(initState, 0), ((refresh initState 0).1, 700)],
        ∀ i : Fin 6, (p : DisplayState × Nat).1.displayBuffer i < 13)
      ∧ settleOK ([(initState, 0), ((refresh initState 0).1, 700)].flatMap
          fun p => (refresh p.1 p.2).2) = true :=
  ⟨by decide,
    c8_settle_between_drives [(initState, 0), ((refresh initState 0).1, 700)] (by decide)⟩

end BatteryMonitor
